import Mathlib

/-!
Verification of the cipherio block-aligned streaming adapters: a shallow embedding of
the padding capability (padding.go), the block-aligned reader (reader.go) and the
block-aligned writer, together with theorems about their buffering, error handling and
interaction bounds.
-/

namespace Cipherio

/-- Status values returned by read, write and close operations. The constructor eof
models io.EOF, unexpectedEOF models io.ErrUnexpectedEOF, shortWrite models
io.ErrShortWrite, and other models any further upstream or downstream error value,
distinguished by a numeric code. -/
inductive IOErr where
  | eof
  | unexpectedEOF
  | shortWrite
  | other (code : Nat)
deriving DecidableEq, Repr

/-- Byte values are modelled as natural numbers (meaningful values lie below 256). -/
abbrev Byte := Nat

/-- fill writes the value val into every position of dst (padding.go, func fill). -/
def fill (dst : List Byte) (val : Byte) : List Byte :=
  dst.map (fun _ => val)

/-- ZeroPadding fills an incomplete block with zeroes (padding.go). The fill always
succeeds, so the result is always some. -/
def ZeroPadding (dst : List Byte) : Option (List Byte) :=
  some (fill dst 0)

/-- BitPadding writes 0x80 in the first position and zeroes after it (padding.go). On
an empty destination the Go code evaluates dst[0], an out-of-range access, which is
modelled as none. -/
def BitPadding (dst : List Byte) : Option (List Byte) :=
  match dst with
  | [] => none
  | _ :: rest => some (128 :: fill rest 0)

/-- PKCS7Padding repeats the total number of padding bytes (padding.go). When the
destination is longer than 255 bytes the Go code panics, modelled as none. The Go
conversion byte(n) is modelled by reducing modulo 256. -/
def PKCS7Padding (dst : List Byte) : Option (List Byte) :=
  if 255 < dst.length then none
  else some (fill dst (dst.length % 256))

/-- State of the block-aligned reader (reader.go, type blockReader). The upstream
source and the block mode are supplied per call: the source as a script of responses
and the block mode as a function on byte lists, applied in place. -/
structure blockReader where
  blockSize : Nat
  buf : List Byte
  crypted : Nat
  eof : Bool
deriving DecidableEq, Repr

/-- NewBlockReader builds the initial reader state (reader.go): an empty scratch
buffer of capacity blockSize, no pending crypted bytes and the eof flag unset. -/
def NewBlockReader (blockSize : Nat) : blockReader :=
  ⟨blockSize, [], 0, false⟩

/-- overwriteAt p data i writes data into p starting at position i, clamped to the
length of p, modelling a Go copy into the subslice starting at i. The length of p is
always preserved. -/
def overwriteAt (p data : List Byte) (i : Nat) : List Byte :=
  p.take i ++ data.take (p.length - i) ++ p.drop (i + data.length)

/-- srcRead models one call to the upstream source: the next script entry supplies up
to its data bytes, clamped to the requested length q, together with its status. An
exhausted script behaves as a source returning no bytes and a nil error. -/
def srcRead (script : List (List Byte × Option IOErr)) (q : Nat) :
    List Byte × Option IOErr × List (List Byte × Option IOErr) :=
  match script with
  | [] => ([], none, [])
  | (d, e) :: rest => (d.take q, e, rest)

/-- Result of one call to blockReader.Read. Alongside the updated reader state and the
pair count and err returned to the caller, the outcome records the final contents of
the destination, the remaining upstream script, the lengths of the requests issued to
the upstream source, and the number of CryptBlocks invocations, so that interaction
bounds can be stated. -/
structure ReadOutcome where
  r : blockReader
  script : List (List Byte × Option IOErr)
  count : Nat
  err : Option IOErr
  dest : List Byte
  upstreamReqs : List Nat
  transformCalls : Nat
deriving Repr

/-- Small-destination path of blockReader.Read (reader.go lines 67 to 85): the reader
tops up its scratch buffer from upstream and, when the buffer reaches a full block,
transforms it in place and copies a prefix into the destination window. Here buf1 is
the scratch contents on entry (pending crypted bytes already drained), p1 the full
destination of which off bytes are already written, and count0 the count so far. The
eof adjustment follows the Go code: on upstream EOF, pending crypted bytes defer the
status via the eof flag, a nonempty scratch turns it into unexpectedEOF, and an empty
scratch reports it directly. -/
def smallRead (crypt : List Byte → List Byte) (bs : Nat) (buf1 p1 : List Byte)
    (off count0 : Nat) (script : List (List Byte × Option IOErr)) : ReadOutcome :=
  let q := bs - buf1.length
  let res := srcRead script q
  let d := res.1
  let e := res.2.1
  let script1 := res.2.2
  let buf2 := buf1 ++ d
  if buf2.length = bs then
    let buf3 := overwriteAt buf2 (crypt buf2) 0
    let copied := min (p1.length - off) buf3.length
    let p2 := overwriteAt p1 (buf3.take copied) off
    let crypted2 := bs - copied
    if e = some IOErr.eof then
      if 0 < crypted2 then
        ⟨⟨bs, buf3, crypted2, true⟩, script1, count0 + copied, none, p2, [q], 1⟩
      else if 0 < buf3.length then
        ⟨⟨bs, buf3, crypted2, false⟩, script1, count0 + copied, some IOErr.unexpectedEOF,
          p2, [q], 1⟩
      else
        ⟨⟨bs, buf3, crypted2, false⟩, script1, count0 + copied, some IOErr.eof, p2, [q], 1⟩
    else
      ⟨⟨bs, buf3, crypted2, false⟩, script1, count0 + copied, e, p2, [q], 1⟩
  else
    if e = some IOErr.eof then
      if 0 < buf2.length then
        ⟨⟨bs, buf2, 0, false⟩, script1, count0, some IOErr.unexpectedEOF, p1, [q], 0⟩
      else
        ⟨⟨bs, buf2, 0, false⟩, script1, count0, some IOErr.eof, p1, [q], 0⟩
    else
      ⟨⟨bs, buf2, 0, false⟩, script1, count0, e, p1, [q], 0⟩

/-- Large-destination path of blockReader.Read (reader.go lines 87 to 106): upstream
bytes are read directly into the destination window after the buffered bytes, whole
blocks are transformed in place inside the destination, and the tail that does not
fill a block is retained in the scratch buffer. The two arms correspond to the Go
conditional on crypted followed by the shared leftover bookkeeping: in the first arm
the scratch was emptied, so newlyBuffered equals buffered; in the second arm nothing
was transformed and newlyBuffered is buffered minus the old scratch length. -/
def largeRead (crypt : List Byte → List Byte) (bs : Nat) (buf1 p1 : List Byte)
    (off count0 : Nat) (script : List (List Byte × Option IOErr)) : ReadOutcome :=
  let q := (p1.length - off) - buf1.length
  let res := srcRead script q
  let d := res.1
  let e := res.2.1
  let script1 := res.2.2
  let p2 := overwriteAt p1 d (off + buf1.length)
  let available := buf1.length + d.length
  let buffered := available % bs
  if 0 < available - buffered then
    let cryptedL := available - buffered
    let p3 := overwriteAt p2 buf1 off
    let p4 := overwriteAt p3 ((crypt ((p3.drop off).take cryptedL)).take cryptedL) off
    let bufNew := ((p4.drop off).drop (available - buffered)).take buffered
    let e2 := if e = some IOErr.eof ∧ 0 < buffered then some IOErr.unexpectedEOF else e
    ⟨⟨bs, bufNew, 0, false⟩, script1, count0 + cryptedL, e2, p4, [q], 1⟩
  else
    let bufNew :=
      buf1 ++ ((p2.drop off).drop (available - (buffered - buf1.length))).take
        (buffered - buf1.length)
    let e2 := if e = some IOErr.eof ∧ 0 < buffered then some IOErr.unexpectedEOF else e
    ⟨⟨bs, bufNew, 0, false⟩, script1, count0, e2, p2, [q], 0⟩

/-- One call to blockReader.Read (reader.go lines 46 to 107) on destination p0, with
the upstream source modelled by a script of responses and the block mode by the
function crypt. The call first drains pending crypted bytes from the scratch buffer,
then returns early on a drained-but-unfinished flush, on the recorded eof flag, or on
an exhausted destination, and otherwise takes the small or large destination path. -/
def blockReader.Read (crypt : List Byte → List Byte) (r : blockReader) (p0 : List Byte)
    (script : List (List Byte × Option IOErr)) : ReadOutcome :=
  let bs := r.blockSize
  let flushSrc := r.buf.drop (bs - r.crypted)
  let copied0 := if 0 < r.crypted then min p0.length flushSrc.length else 0
  let p1 := if 0 < r.crypted then overwriteAt p0 flushSrc 0 else p0
  let crypted1 := r.crypted - copied0
  let off := copied0
  if 0 < crypted1 then
    ⟨⟨bs, r.buf, crypted1, r.eof⟩, script, copied0, none, p1, [], 0⟩
  else
    let buf1 := if 0 < r.crypted then [] else r.buf
    if r.eof then
      ⟨⟨bs, buf1, 0, true⟩, script, copied0, some IOErr.eof, p1, [], 0⟩
    else if p1.length - off = 0 then
      ⟨⟨bs, buf1, 0, false⟩, script, copied0, none, p1, [], 0⟩
    else if p1.length - off < bs then
      smallRead crypt bs buf1 p1 off copied0 script
    else
      largeRead crypt bs buf1 p1 off copied0 script

/-- Invariant on the reader state, stated by the specification: the scratch buffer
never exceeds one block, and either it holds only not-yet-transformed bytes (crypted
is zero and the buffer is shorter than a block) or only transformed undelivered bytes
(crypted positive and the buffer holds exactly one full block). -/
def blockReader.WF (r : blockReader) : Prop :=
  0 < r.blockSize ∧ r.buf.length ≤ r.blockSize ∧ r.crypted ≤ r.blockSize ∧
    ((r.crypted = 0 ∧ r.buf.length < r.blockSize) ∨
      (0 < r.crypted ∧ r.buf.length = r.blockSize))

instance (r : blockReader) : Decidable r.WF := by
  unfold blockReader.WF
  infer_instance

/-- Modelled from the spec: the writer source file is not among the provided sources,
only its tests are, so the block-aligned writer state follows section 3 of the
specification: a count of buffered not-yet-transformed bytes (kept here as the bytes
themselves), a closed flag and a sticky fault slot holding the first unrecoverable
error. The block size is kept in the state; sink, transform and padding are supplied
per call. -/
structure blockWriter where
  blockSize : Nat
  buffered : List Byte
  closed : Bool
  fault : Option IOErr
deriving DecidableEq, Repr

/-- Modelled from the spec: construction of a block-aligned writer with an empty
buffer, not closed and no recorded fault. -/
def NewBlockWriter (blockSize : Nat) : blockWriter :=
  ⟨blockSize, [], false, none⟩

/-- Modelled from the spec: the bounded staging capacity, in blocks, of a single
downstream push; the specification leaves the exact constant open and the tests
observe batches of 1024 blocks. -/
def stagingBlocks : Nat := 1024

/-- chunksOf cap data splits data into consecutive chunks of at most cap bytes. -/
def chunksOf (cap : Nat) (data : List Byte) : List (List Byte) :=
  (List.range ((data.length + cap - 1) / cap)).map fun i => (data.drop (i * cap)).take cap

/-- Modelled from the spec: result of pushing ready chunks downstream, recording the
transformed chunks actually pushed, the number of bytes the sink acknowledged, the
error if any, the remaining sink script and the number of transform invocations. -/
structure PushResult where
  pushes : List (List Byte)
  okBytes : Nat
  err : Option IOErr
  script : List (Nat × Option IOErr)
  transformCalls : Nat
deriving DecidableEq, Repr

/-- Modelled from the spec: transform and push ready chunks downstream one by one. The
sink is a script of responses, each an acknowledged length and a status; a sink error
or a short write (fewer acknowledged bytes than pushed, with no error) stops the loop,
the latter reported as shortWrite. An exhausted script acknowledges nothing. -/
def pushLoop (crypt : List Byte → List Byte) :
    List (List Byte) → List (Nat × Option IOErr) → PushResult
  | [], script => ⟨[], 0, none, script, 0⟩
  | chunk :: restChunks, script =>
    let t := crypt chunk
    let resp := script.headD (0, none)
    let script1 := script.tail
    let n := min resp.1 t.length
    match resp.2 with
    | some e => ⟨[t], n, some e, script1, 1⟩
    | none =>
      if n < t.length then ⟨[t], n, some IOErr.shortWrite, script1, 1⟩
      else
        let rest := pushLoop crypt restChunks script1
        ⟨t :: rest.pushes, n + rest.okBytes, rest.err, rest.script, 1 + rest.transformCalls⟩

/-- Modelled from the spec: outcome of one blockWriter.Write call, recording the
updated writer, the remaining sink script, the consumed count and error returned to
the caller, the chunks pushed downstream, the number of transform invocations, and the
caller's source region after the call. -/
structure WriteOutcome where
  w : blockWriter
  script : List (Nat × Option IOErr)
  consumed : Nat
  err : Option IOErr
  pushes : List (List Byte)
  transformCalls : Nat
  sourceOut : List Byte
deriving DecidableEq, Repr

/-- Modelled from the spec: blockWriter.Write, whose source file is not among the
provided sources. A recorded sticky fault is returned immediately with no further
buffering, transformation or downstream push. Otherwise source bytes are appended
after the buffered partial block; whole blocks are transformed and pushed downstream
in chunks bounded by the staging capacity and the remainder stays buffered. On a
downstream failure the consumed count is the number of acknowledged bytes beyond the
previously buffered ones, as the tests observe, and the fault is recorded. The source
region is only read, never written. -/
def blockWriter.Write (crypt : List Byte → List Byte) (w : blockWriter)
    (source : List Byte) (script : List (Nat × Option IOErr)) : WriteOutcome :=
  match w.fault with
  | some e => ⟨w, script, 0, some e, [], 0, source⟩
  | none =>
    let total := w.buffered ++ source
    let nb := total.length / w.blockSize
    if nb = 0 then
      ⟨{ w with buffered := total }, script, source.length, none, [], 0, source⟩
    else
      let ready := total.take (nb * w.blockSize)
      let rest := total.drop (nb * w.blockSize)
      let res := pushLoop crypt (chunksOf (stagingBlocks * w.blockSize) ready) script
      match res.err with
      | none =>
        ⟨{ w with buffered := rest }, res.script, source.length, none, res.pushes,
          res.transformCalls, source⟩
      | some e =>
        ⟨{ w with buffered := [], fault := some e }, res.script,
          res.okBytes - w.buffered.length, some e, res.pushes, res.transformCalls, source⟩

/-- Modelled from the spec: outcome of one blockWriter.Close call. -/
structure CloseOutcome where
  w : blockWriter
  script : List (Nat × Option IOErr)
  err : Option IOErr
  pushes : List (List Byte)
  transformCalls : Nat
deriving DecidableEq, Repr

/-- Modelled from the spec: blockWriter.Close, the finalize operation, whose source
file is not among the provided sources. A recorded sticky fault is returned
immediately; with an empty buffer the call succeeds with no downstream interaction and
marks the writer closed; with buffered bytes and no padding it records and returns the
truncated-stream fault unexpectedEOF; with buffered bytes and a padding capability it
fills the unused tail of the final block, transforms the completed block, pushes it
downstream once and succeeds, recording any push failure as the sticky fault. -/
def blockWriter.Close (crypt : List Byte → List Byte) (padding : Option (Nat → List Byte))
    (w : blockWriter) (script : List (Nat × Option IOErr)) : CloseOutcome :=
  match w.fault with
  | some e => ⟨w, script, some e, [], 0⟩
  | none =>
    if w.buffered.length = 0 then
      ⟨{ w with closed := true }, script, none, [], 0⟩
    else
      match padding with
      | none =>
        ⟨{ w with fault := some IOErr.unexpectedEOF }, script, some IOErr.unexpectedEOF,
          [], 0⟩
      | some f =>
        let block := crypt (w.buffered ++ f (w.blockSize - w.buffered.length))
        let resp := script.headD (0, none)
        let script1 := script.tail
        let n := min resp.1 block.length
        match resp.2 with
        | some e => ⟨{ w with buffered := [], fault := some e }, script1, some e, [block], 1⟩
        | none =>
          if n < block.length then
            ⟨{ w with buffered := [], fault := some IOErr.shortWrite }, script1,
              some IOErr.shortWrite, [block], 1⟩
          else
            ⟨{ w with buffered := [], closed := true }, script1, none, [block], 1⟩

theorem fill_eq_replicate (dst : List Byte) (v : Byte) :
    fill dst v = List.replicate dst.length v := by
  simp [fill]

theorem overwriteAt_length (p data : List Byte) (i : Nat) :
    (overwriteAt p data i).length = p.length := by
  simp only [overwriteAt, List.length_append, List.length_take, List.length_drop]
  omega

theorem srcRead_data_length (script : List (List Byte × Option IOErr)) (q : Nat) :
    (srcRead script q).1.length ≤ q := by
  cases script with
  | nil => simp [srcRead]
  | cons h t => simp [srcRead]

/-- C8: for every destination of length n with 1 ≤ n, each built-in padding fill
writes exactly n bytes as a pure function of n alone: ZeroPadding yields n zero bytes,
BitPadding yields 0x80 followed by n-1 zero bytes, PKCS7Padding yields n copies of the
byte n when n is at most 255 and fails fatally when n exceeds 255; in particular for
n equal to 5 the outputs are 00 00 00 00 00, 80 00 00 00 00 and 05 05 05 05 05, and
PKCS7Padding on a 256-byte destination fails. -/
theorem c8_padding_fill_values (dst : List Byte) (h : 1 ≤ dst.length) :
    ZeroPadding dst = some (List.replicate dst.length 0) ∧
    BitPadding dst = some (128 :: List.replicate (dst.length - 1) 0) ∧
    (dst.length ≤ 255 → PKCS7Padding dst = some (List.replicate dst.length dst.length)) ∧
    (255 < dst.length → PKCS7Padding dst = none) ∧
    ZeroPadding (List.replicate 5 37) = some [0, 0, 0, 0, 0] ∧
    BitPadding (List.replicate 5 37) = some [128, 0, 0, 0, 0] ∧
    PKCS7Padding (List.replicate 5 37) = some [5, 5, 5, 5, 5] ∧
    PKCS7Padding (List.replicate 256 37) = none := by
  refine ⟨?_, ?_, ?_, ?_, by decide, by decide, by decide, ?_⟩
  · simp [ZeroPadding, fill_eq_replicate]
  · cases dst with
    | nil => simp at h
    | cons a t => simp [BitPadding, fill_eq_replicate]
  · intro hle
    have hmod : dst.length % 256 = dst.length := Nat.mod_eq_of_lt (by omega)
    simp [PKCS7Padding, fill_eq_replicate, hmod, Nat.not_lt.mpr hle]
  · intro hgt
    simp [PKCS7Padding, hgt]
  · simp only [PKCS7Padding, List.length_replicate]
    norm_num

theorem c8_padding_fill_values_witness :
    1 ≤ ([1, 2, 3, 4, 5] : List Byte).length ∧
      (ZeroPadding [1, 2, 3, 4, 5] = some (List.replicate 5 0) ∧
       BitPadding [1, 2, 3, 4, 5] = some (128 :: List.replicate 4 0) ∧
       (([1, 2, 3, 4, 5] : List Byte).length ≤ 255 →
         PKCS7Padding [1, 2, 3, 4, 5] = some (List.replicate 5 5)) ∧
       (255 < ([1, 2, 3, 4, 5] : List Byte).length →
         PKCS7Padding [1, 2, 3, 4, 5] = none) ∧
       ZeroPadding (List.replicate 5 37) = some [0, 0, 0, 0, 0] ∧
       BitPadding (List.replicate 5 37) = some [128, 0, 0, 0, 0] ∧
       PKCS7Padding (List.replicate 5 37) = some [5, 5, 5, 5, 5] ∧
       PKCS7Padding (List.replicate 256 37) = none) :=
  ⟨by decide, c8_padding_fill_values [1, 2, 3, 4, 5] (by decide)⟩

/-- C1: counterexample to the claim that a reported end-of-stream status makes every
later call repeat that status with zero bytes and no further upstream read. With the
large-destination path, a call that returns io.EOF together with three full blocks
leaves the eof flag unset, so the next call issues another upstream request (of one
block size) instead of replaying the terminal status without touching upstream; the
reader tests expect no upstream call there. -/
theorem c1_read_after_eof_rereads_upstream :
    (blockReader.Read id (NewBlockReader 16) (List.replicate 16 0)
        [(List.replicate 16 1, some IOErr.eof)]).count = 16 ∧
    (blockReader.Read id (NewBlockReader 16) (List.replicate 16 0)
        [(List.replicate 16 1, some IOErr.eof)]).err = some IOErr.eof ∧
    (blockReader.Read id (NewBlockReader 16) (List.replicate 16 0)
        [(List.replicate 16 1, some IOErr.eof)]).r.eof = false ∧
    (blockReader.Read id
        (blockReader.Read id (NewBlockReader 16) (List.replicate 16 0)
          [(List.replicate 16 1, some IOErr.eof)]).r
        (List.replicate 16 0) [([], some IOErr.eof)]).upstreamReqs = [16] := by
  decide

/-- C2: counterexample to the claim that an upstream error is sticky for the reader.
The reader state has no slot for a pending error: after a call that returns the error
together with three crypted bytes and leaves thirteen crypted bytes pending, the call
that drains those thirteen bytes returns a nil error instead of repeating the error,
and the following call issues a fresh upstream request; the reader tests expect the
error to be replayed after the drain. -/
theorem c2_error_not_sticky_after_drain :
    (blockReader.Read id
        (blockReader.Read id (NewBlockReader 16) (List.replicate 3 0)
          [(List.replicate 5 7, none)]).r
        (List.replicate 3 0) [(List.replicate 11 7, some (IOErr.other 42))]).count = 3 ∧
    (blockReader.Read id
        (blockReader.Read id (NewBlockReader 16) (List.replicate 3 0)
          [(List.replicate 5 7, none)]).r
        (List.replicate 3 0) [(List.replicate 11 7, some (IOErr.other 42))]).err =
      some (IOErr.other 42) ∧
    (blockReader.Read id
        (blockReader.Read id (NewBlockReader 16) (List.replicate 3 0)
          [(List.replicate 5 7, none)]).r
        (List.replicate 3 0) [(List.replicate 11 7, some (IOErr.other 42))]).r.crypted = 13 ∧
    (blockReader.Read id
        (blockReader.Read id
          (blockReader.Read id (NewBlockReader 16) (List.replicate 3 0)
            [(List.replicate 5 7, none)]).r
          (List.replicate 3 0) [(List.replicate 11 7, some (IOErr.other 42))]).r
        (List.replicate 13 0) []).count = 13 ∧
    (blockReader.Read id
        (blockReader.Read id
          (blockReader.Read id (NewBlockReader 16) (List.replicate 3 0)
            [(List.replicate 5 7, none)]).r
          (List.replicate 3 0) [(List.replicate 11 7, some (IOErr.other 42))]).r
        (List.replicate 13 0) []).err = none ∧
    (blockReader.Read id
        (blockReader.Read id
          (blockReader.Read id
            (blockReader.Read id (NewBlockReader 16) (List.replicate 3 0)
              [(List.replicate 5 7, none)]).r
            (List.replicate 3 0) [(List.replicate 11 7, some (IOErr.other 42))]).r
          (List.replicate 13 0) []).r
        (List.replicate 3 0) []).upstreamReqs = [16] := by
  decide

/-- C9: a write call never mutates the caller's source region: the bytes of the source
are identical before and after the call, for every writer state, source and sink
behavior. -/
theorem c9_write_preserves_source (crypt : List Byte → List Byte) (w : blockWriter)
    (source : List Byte) (script : List (Nat × Option IOErr)) :
    (blockWriter.Write crypt w source script).sourceOut = source := by
  unfold blockWriter.Write
  split
  · rfl
  · dsimp only
    split
    · rfl
    · split <;> rfl

theorem write_fault_eq_err (crypt : List Byte → List Byte) (w : blockWriter)
    (source : List Byte) (script : List (Nat × Option IOErr)) :
    (blockWriter.Write crypt w source script).w.fault =
      (blockWriter.Write crypt w source script).err := by
  unfold blockWriter.Write
  split
  next e hfault => simpa using hfault
  next hfault =>
    dsimp only
    split
    · simpa using hfault
    · split
      next hres => simpa using hfault
      next e hres => simp

theorem close_fault_eq_err (crypt : List Byte → List Byte)
    (padding : Option (Nat → List Byte)) (w : blockWriter)
    (script : List (Nat × Option IOErr)) :
    (blockWriter.Close crypt padding w script).w.fault =
      (blockWriter.Close crypt padding w script).err := by
  unfold blockWriter.Close
  split
  next e hfault => simpa using hfault
  next hfault =>
    dsimp only
    split
    · simpa using hfault
    · split
      · simp
      · split
        next e hresp => simp
        next hresp =>
          split
          · simp
          · simpa using hfault

/-- C3: sticky-fault rule for the writer: with a recorded fault e, every write or
close call returns exactly e immediately, with the state unchanged, no consumed bytes,
no transform invocation and no downstream push, regardless of the supplied data and
sink; moreover, whenever any write or close call returns an error, that error is
recorded as the writer's fault, so the first error permanently poisons the writer. -/
theorem c3_writer_sticky_fault (crypt : List Byte → List Byte)
    (padding : Option (Nat → List Byte)) (w : blockWriter) (source : List Byte)
    (script : List (Nat × Option IOErr)) (e : IOErr) (h : w.fault = some e) :
    blockWriter.Write crypt w source script = ⟨w, script, 0, some e, [], 0, source⟩ ∧
    blockWriter.Close crypt padding w script = ⟨w, script, some e, [], 0⟩ ∧
    (∀ w' : blockWriter, ∀ e' : IOErr,
      ((blockWriter.Write crypt w' source script).err = some e' →
        (blockWriter.Write crypt w' source script).w.fault = some e') ∧
      ((blockWriter.Close crypt padding w' script).err = some e' →
        (blockWriter.Close crypt padding w' script).w.fault = some e')) := by
  refine ⟨?_, ?_, fun w' e' =>
    ⟨fun he => (write_fault_eq_err crypt w' source script).trans he,
     fun he => (close_fault_eq_err crypt padding w' script).trans he⟩⟩
  · unfold blockWriter.Write
    rw [h]
  · unfold blockWriter.Close
    rw [h]

theorem c3_writer_sticky_fault_witness :
    (blockWriter.mk 16 [3, 1, 4] false (some (IOErr.other 7))).fault =
        some (IOErr.other 7) ∧
      (blockWriter.Write id (blockWriter.mk 16 [3, 1, 4] false (some (IOErr.other 7)))
          [8, 8, 8] [(16, none)] =
        ⟨blockWriter.mk 16 [3, 1, 4] false (some (IOErr.other 7)), [(16, none)], 0,
          some (IOErr.other 7), [], 0, [8, 8, 8]⟩ ∧
      blockWriter.Close id none (blockWriter.mk 16 [3, 1, 4] false (some (IOErr.other 7)))
          [(16, none)] =
        ⟨blockWriter.mk 16 [3, 1, 4] false (some (IOErr.other 7)), [(16, none)],
          some (IOErr.other 7), [], 0⟩ ∧
      (∀ w' : blockWriter, ∀ e' : IOErr,
        ((blockWriter.Write id w' [8, 8, 8] [(16, none)]).err = some e' →
          (blockWriter.Write id w' [8, 8, 8] [(16, none)]).w.fault = some e') ∧
        ((blockWriter.Close id none w' [(16, none)]).err = some e' →
          (blockWriter.Close id none w' [(16, none)]).w.fault = some e'))) :=
  ⟨rfl, c3_writer_sticky_fault id none (blockWriter.mk 16 [3, 1, 4] false
    (some (IOErr.other 7))) [8, 8, 8] [(16, none)] (IOErr.other 7) rfl⟩

/-- C4: finalize behavior of a non-faulted writer: with an empty buffer, close
succeeds with no downstream interaction and a repeated close also succeeds with no
downstream interaction; with buffered bytes and no padding capability, close fails
with the truncated-stream fault unexpectedEOF recorded permanently; with buffered
bytes and a padding capability, close pushes downstream exactly once the transformed
block made of the buffered bytes completed by the padding fill of the unused tail, and
succeeds. -/
theorem c4_writer_finalize_cases (crypt : List Byte → List Byte)
    (padding : Option (Nat → List Byte)) (w : blockWriter)
    (script : List (Nat × Option IOErr)) (hf : w.fault = none) :
    (w.buffered = [] →
      blockWriter.Close crypt padding w script =
        ⟨{ w with closed := true }, script, none, [], 0⟩ ∧
      blockWriter.Close crypt padding { w with closed := true } script =
        ⟨{ w with closed := true }, script, none, [], 0⟩) ∧
    (w.buffered ≠ [] → padding = none →
      blockWriter.Close crypt padding w script =
        ⟨{ w with fault := some IOErr.unexpectedEOF }, script,
          some IOErr.unexpectedEOF, [], 0⟩) ∧
    (∀ f : Nat → List Byte, ∀ resLen : Nat, ∀ rest : List (Nat × Option IOErr),
      w.buffered ≠ [] → padding = some f → script = (resLen, none) :: rest →
      (crypt (w.buffered ++ f (w.blockSize - w.buffered.length))).length ≤ resLen →
      blockWriter.Close crypt padding w script =
        ⟨{ w with buffered := [], closed := true }, rest, none,
          [crypt (w.buffered ++ f (w.blockSize - w.buffered.length))], 1⟩) := by
  refine ⟨?_, ?_, ?_⟩
  · intro hbuf
    constructor
    · unfold blockWriter.Close
      rw [hf]
      simp [hbuf]
    · unfold blockWriter.Close
      simp [hf, hbuf]
  · intro hbuf hpad
    unfold blockWriter.Close
    rw [hf, hpad]
    simp [List.length_eq_zero, hbuf]
  · intro f resLen rest hbuf hpad hscript hle
    unfold blockWriter.Close
    rw [hf, hpad, hscript]
    simp [List.length_eq_zero, hbuf, Nat.min_eq_right hle, Nat.not_lt.mpr hle]

theorem c4_writer_finalize_cases_witness :
    (NewBlockWriter 16).fault = none ∧
      (((NewBlockWriter 16).buffered = [] →
        blockWriter.Close id (some fun k => List.replicate k 0) (NewBlockWriter 16) [] =
          ⟨{ NewBlockWriter 16 with closed := true }, [], none, [], 0⟩ ∧
        blockWriter.Close id (some fun k => List.replicate k 0)
            { NewBlockWriter 16 with closed := true } [] =
          ⟨{ NewBlockWriter 16 with closed := true }, [], none, [], 0⟩) ∧
      ((NewBlockWriter 16).buffered ≠ [] → (some fun k => List.replicate k (0 : Byte)) = none →
        blockWriter.Close id (some fun k => List.replicate k 0) (NewBlockWriter 16) [] =
          ⟨{ NewBlockWriter 16 with fault := some IOErr.unexpectedEOF }, [],
            some IOErr.unexpectedEOF, [], 0⟩) ∧
      (∀ f : Nat → List Byte, ∀ resLen : Nat, ∀ rest : List (Nat × Option IOErr),
        (NewBlockWriter 16).buffered ≠ [] →
        (some fun k => List.replicate k (0 : Byte)) = some f → ([] : List (Nat × Option IOErr)) = (resLen, none) :: rest →
        (id ((NewBlockWriter 16).buffered ++
          f ((NewBlockWriter 16).blockSize - (NewBlockWriter 16).buffered.length))).length ≤ resLen →
        blockWriter.Close id (some fun k => List.replicate k 0) (NewBlockWriter 16) [] =
          ⟨{ NewBlockWriter 16 with buffered := [], closed := true }, rest, none,
            [id ((NewBlockWriter 16).buffered ++
              f ((NewBlockWriter 16).blockSize - (NewBlockWriter 16).buffered.length))], 1⟩)) :=
  ⟨rfl, c4_writer_finalize_cases id (some fun k => List.replicate k 0) (NewBlockWriter 16)
    [] rfl⟩

theorem smallRead_tc_le (crypt : List Byte → List Byte) (bs : Nat) (buf1 p1 : List Byte)
    (off c0 : Nat) (script : List (List Byte × Option IOErr)) :
    (smallRead crypt bs buf1 p1 off c0 script).transformCalls ≤ 1 := by
  unfold smallRead
  dsimp only
  repeat' split
  all_goals simp

theorem largeRead_tc_le (crypt : List Byte → List Byte) (bs : Nat) (buf1 p1 : List Byte)
    (off c0 : Nat) (script : List (List Byte × Option IOErr)) :
    (largeRead crypt bs buf1 p1 off c0 script).transformCalls ≤ 1 := by
  unfold largeRead
  dsimp only
  repeat' split
  all_goals simp

theorem smallRead_reqs (crypt : List Byte → List Byte) (bs : Nat) (buf1 p1 : List Byte)
    (off c0 : Nat) (script : List (List Byte × Option IOErr)) :
    (smallRead crypt bs buf1 p1 off c0 script).upstreamReqs = [bs - buf1.length] := by
  unfold smallRead
  dsimp only
  repeat' split
  all_goals simp

theorem largeRead_reqs (crypt : List Byte → List Byte) (bs : Nat) (buf1 p1 : List Byte)
    (off c0 : Nat) (script : List (List Byte × Option IOErr)) :
    (largeRead crypt bs buf1 p1 off c0 script).upstreamReqs =
      [(p1.length - off) - buf1.length] := by
  unfold largeRead
  dsimp only
  repeat' split
  all_goals simp

/-- C5: every single read call performs at most one read of the upstream source and at
most one invocation of the block transform, for every reader state, destination and
upstream behavior. -/
theorem c5_read_single_upstream_and_transform (crypt : List Byte → List Byte)
    (r : blockReader) (p0 : List Byte) (script : List (List Byte × Option IOErr)) :
    (blockReader.Read crypt r p0 script).upstreamReqs.length ≤ 1 ∧
    (blockReader.Read crypt r p0 script).transformCalls ≤ 1 := by
  unfold blockReader.Read
  dsimp only
  repeat' split
  all_goals
    refine ⟨?_, ?_⟩ <;>
      first
      | (simp; done)
      | (rw [smallRead_reqs]; simp)
      | (rw [largeRead_reqs]; simp)
      | apply smallRead_tc_le
      | apply largeRead_tc_le

theorem smallRead_WF (crypt : List Byte → List Byte) (bs : Nat) (buf1 p1 : List Byte)
    (off c0 : Nat) (script : List (List Byte × Option IOErr))
    (hbs : 0 < bs) (hbuf : buf1.length < bs) (hsmall : p1.length - off < bs) :
    (smallRead crypt bs buf1 p1 off c0 script).r.WF := by
  have hd := srcRead_data_length script (bs - buf1.length)
  unfold smallRead blockReader.WF
  dsimp only
  repeat' split
  all_goals
    simp only [overwriteAt_length, List.length_append, List.length_take, List.length_nil,
      List.length_drop, true_and, and_true, false_and, and_false, or_false, false_or,
      lt_self_iff_false] at *
  all_goals omega

theorem largeRead_WF (crypt : List Byte → List Byte) (bs : Nat) (buf1 p1 : List Byte)
    (off c0 : Nat) (script : List (List Byte × Option IOErr))
    (hbs : 0 < bs) (hbuf : buf1.length < bs) (hlarge : bs ≤ p1.length - off) :
    (largeRead crypt bs buf1 p1 off c0 script).r.WF := by
  have hd := srcRead_data_length script ((p1.length - off) - buf1.length)
  have hmod : (buf1.length + (srcRead script ((p1.length - off) - buf1.length)).1.length) % bs < bs :=
    Nat.mod_lt _ hbs
  unfold largeRead blockReader.WF
  dsimp only
  repeat' split
  all_goals
    simp only [overwriteAt_length, List.length_append, List.length_take, List.length_nil,
      List.length_drop, true_and, and_true, false_and, and_false, or_false, false_or,
      lt_self_iff_false] at *
  all_goals omega

/-- C7: the reader state invariant holds by construction and is preserved by every
read call: the scratch buffer never holds more than one block, and either the cursor of
pending transformed bytes is zero with the buffer shorter than a block (only
not-yet-transformed upstream bytes buffered), or the cursor is positive with the buffer
holding exactly one full transformed block — never a mix. -/
theorem c7_reader_buffer_invariant (crypt : List Byte → List Byte) (r : blockReader) (p0 : List Byte)
    (script : List (List Byte × Option IOErr)) (hwf : r.WF) :
    (∀ bs, 0 < bs → (NewBlockReader bs).WF) ∧
    (blockReader.Read crypt r p0 script).r.WF := by
  constructor
  · intro bs hbs
    simp [NewBlockReader, blockReader.WF, hbs]
  · unfold blockReader.WF at hwf
    unfold blockReader.Read
    dsimp only
    repeat' split
    all_goals
      first
      | (apply smallRead_WF <;>
          first
          | omega
          | (simp only [overwriteAt_length, List.length_nil] at *; omega))
      | (apply largeRead_WF <;>
          first
          | omega
          | (simp only [overwriteAt_length, List.length_nil] at *; omega))
      | (unfold blockReader.WF
         simp only [overwriteAt_length, List.length_nil, List.length_append, true_and,
           and_true, false_and, and_false, or_false, false_or, lt_self_iff_false] at *
         omega)
      | (unfold blockReader.WF; omega)

theorem largeRead_buflen (crypt : List Byte → List Byte) (bs : Nat) (buf1 p1 : List Byte)
    (off c0 : Nat) (script : List (List Byte × Option IOErr)) (hbs : 0 < bs)
    (hbuf : buf1.length ≤ p1.length - off) :
    (largeRead crypt bs buf1 p1 off c0 script).r.buf.length =
      (buf1.length + (srcRead script ((p1.length - off) - buf1.length)).1.length) % bs := by
  have hd := srcRead_data_length script ((p1.length - off) - buf1.length)
  have hble : (buf1.length + (srcRead script ((p1.length - off) - buf1.length)).1.length) % bs ≤
      buf1.length + (srcRead script ((p1.length - off) - buf1.length)).1.length :=
    Nat.mod_le _ _
  have hblt : (buf1.length + (srcRead script ((p1.length - off) - buf1.length)).1.length) % bs
      < bs := Nat.mod_lt _ hbs
  unfold largeRead
  dsimp only
  split
  all_goals
    simp only [overwriteAt_length, List.length_take, List.length_drop, List.length_append]
  all_goals omega

theorem largeRead_eof_err (crypt : List Byte → List Byte) (bs : Nat) (buf1 p1 : List Byte)
    (off c0 : Nat) (d : List Byte) :
    (largeRead crypt bs buf1 p1 off c0 [(d, some IOErr.eof)]).err =
      (if (buf1.length + (((p1.length - off) - buf1.length) ⊓ d.length)) % bs = 0 then
        some IOErr.eof else some IOErr.unexpectedEOF) := by
  unfold largeRead
  dsimp only
  simp only [srcRead, List.length_take]
  by_cases h0 : (buf1.length + (((p1.length - off) - buf1.length) ⊓ d.length)) % bs = 0
  all_goals split
  all_goals simp [h0, Nat.pos_of_ne_zero]

theorem smallRead_eof_nil (crypt : List Byte → List Byte) (bs : Nat) (buf1 p1 : List Byte)
    (off c0 : Nat) (d : List Byte)
    (hc : (smallRead crypt bs buf1 p1 off c0 [(d, some IOErr.eof)]).r.crypted = 0)
    (hn : (smallRead crypt bs buf1 p1 off c0 [(d, some IOErr.eof)]).r.buf.length = 0) :
    (smallRead crypt bs buf1 p1 off c0 [(d, some IOErr.eof)]).err = some IOErr.eof := by
  unfold smallRead at hc hn ⊢
  dsimp only at hc hn ⊢
  simp only [srcRead] at hc hn ⊢
  repeat' split at hc
  all_goals (repeat' split at hn)
  all_goals (repeat' split)
  all_goals first | rfl | (simp_all; done) | omega | (simp_all; omega)

theorem smallRead_eof_ne (crypt : List Byte → List Byte) (bs : Nat) (buf1 p1 : List Byte)
    (off c0 : Nat) (d : List Byte)
    (hc : (smallRead crypt bs buf1 p1 off c0 [(d, some IOErr.eof)]).r.crypted = 0)
    (hn : 0 < (smallRead crypt bs buf1 p1 off c0 [(d, some IOErr.eof)]).r.buf.length) :
    (smallRead crypt bs buf1 p1 off c0 [(d, some IOErr.eof)]).err =
      some IOErr.unexpectedEOF := by
  unfold smallRead at hc hn ⊢
  dsimp only at hc hn ⊢
  simp only [srcRead] at hc hn ⊢
  repeat' split at hc
  all_goals (repeat' split at hn)
  all_goals (repeat' split)
  all_goals first | rfl | (simp_all; done) | omega | (simp_all; omega)

/-- C6: for a reader without padding: if the upstream source signals end-of-stream
exactly when the scratch buffer is empty and no transformed bytes are pending, the
call reports io.EOF with zero additional bytes; when the upstream read of a call
reports end-of-stream, the call reports io.EOF if the scratch buffer ends empty with
no pending transformed bytes, and reports the distinct truncated-stream status
io.ErrUnexpectedEOF if a partial not-yet-full block remains buffered; unexpectedEOF
differs from the eof status and from every plain upstream error. -/
theorem c6_reader_eof_and_truncation (crypt : List Byte → List Byte) (r : blockReader) (p d : List Byte)
    (hwf : r.WF) (he : r.eof = false) :
    (r.crypted = 0 → r.buf = [] →
      (blockReader.Read crypt r p [([], some IOErr.eof)]).upstreamReqs ≠ [] →
      (blockReader.Read crypt r p [([], some IOErr.eof)]).count = 0 ∧
      (blockReader.Read crypt r p [([], some IOErr.eof)]).err = some IOErr.eof) ∧
    ((blockReader.Read crypt r p [(d, some IOErr.eof)]).upstreamReqs ≠ [] →
      (blockReader.Read crypt r p [(d, some IOErr.eof)]).r.crypted = 0 →
      (((blockReader.Read crypt r p [(d, some IOErr.eof)]).r.buf = [] →
        (blockReader.Read crypt r p [(d, some IOErr.eof)]).err = some IOErr.eof) ∧
       ((blockReader.Read crypt r p [(d, some IOErr.eof)]).r.buf ≠ [] →
        (blockReader.Read crypt r p [(d, some IOErr.eof)]).err = some IOErr.unexpectedEOF))) ∧
    (IOErr.unexpectedEOF ≠ IOErr.eof ∧ ∀ c : Nat, IOErr.unexpectedEOF ≠ IOErr.other c) := by
  refine ⟨?_, ?_, by simp, fun c => by simp⟩
  · intro hc hb hreq
    obtain ⟨hbs, -, -, -⟩ := hwf
    unfold blockReader.Read at hreq ⊢
    rw [hc, hb, he] at hreq ⊢
    dsimp only at hreq ⊢
    by_cases hp : p.length = 0
    · simp [hp] at hreq
    · by_cases hsmall : p.length < r.blockSize
      · simp [hp, hsmall, smallRead, srcRead, hbs.ne]
      · simp [hp, hsmall, largeRead, srcRead]
  · unfold blockReader.WF at hwf
    unfold blockReader.Read
    rw [he]
    dsimp only
    repeat' split
    all_goals
      first
      | (intro hreq; exact absurd rfl hreq)
      | (intro hreq hcrypt
         refine ⟨fun hnil => ?_, fun hne => ?_⟩
         · exact smallRead_eof_nil crypt _ _ _ _ _ d hcrypt (by simp only [hnil, List.length_nil])
         · exact smallRead_eof_ne crypt _ _ _ _ _ d hcrypt (List.length_pos.mpr hne))
      | (intro hreq hcrypt
         refine ⟨fun hnil => ?_, fun hne => ?_⟩
         · replace hnil := congrArg List.length hnil
           simp only [List.length_nil] at hnil
           rw [largeRead_buflen crypt] at hnil
           · rw [largeRead_eof_err]
             simp only [srcRead, List.length_take, List.length_drop, List.length_nil,
               overwriteAt_length, Nat.zero_add, Nat.sub_zero] at hnil ⊢
             simp [hnil]
           · first
             | omega
             | (simp only [overwriteAt_length, List.length_nil, List.length_drop]; omega)
           · first
             | omega
             | (simp only [overwriteAt_length, List.length_nil, List.length_drop]; omega)
         · rw [largeRead_eof_err]
           have hpos := List.length_pos.mpr hne
           rw [largeRead_buflen crypt] at hpos
           · simp only [srcRead, List.length_take, List.length_drop, List.length_nil,
               overwriteAt_length, Nat.zero_add, Nat.sub_zero] at hpos ⊢
             simp [Nat.pos_iff_ne_zero.mp hpos]
           · first
             | omega
             | (simp only [overwriteAt_length, List.length_nil, List.length_drop]; omega)
           · first
             | omega
             | (simp only [overwriteAt_length, List.length_nil, List.length_drop]; omega))

/-- C10: the reader never issues a zero-length request to the upstream source; a read
with a zero-length destination and no recorded terminal status returns zero bytes and a
nil error without any upstream or transform call; and on a zero-length buffer
BitPadding is undefined (out-of-range access, modelled as none) while ZeroPadding and
PKCS7Padding succeed. -/
theorem c10_no_zero_length_upstream_reads (crypt : List Byte → List Byte) (r : blockReader) (p : List Byte)
    (script : List (List Byte × Option IOErr)) (hwf : r.WF) :
    (∀ q ∈ (blockReader.Read crypt r p script).upstreamReqs, 0 < q) ∧
    (r.eof = false →
      (blockReader.Read crypt r [] script).count = 0 ∧
      (blockReader.Read crypt r [] script).err = none ∧
      (blockReader.Read crypt r [] script).upstreamReqs = [] ∧
      (blockReader.Read crypt r [] script).transformCalls = 0) ∧
    BitPadding [] = none ∧ ZeroPadding [] = some [] ∧ PKCS7Padding [] = some [] := by
  refine ⟨?_, ?_, by decide, by decide, by decide⟩
  · unfold blockReader.WF at hwf
    unfold blockReader.Read
    dsimp only
    repeat' split
    all_goals
      first
      | (simp; done)
      | (rw [smallRead_reqs]
         simp only [List.mem_singleton, forall_eq, List.length_nil, overwriteAt_length,
           List.length_drop] at *
         omega)
      | (rw [largeRead_reqs]
         simp only [List.mem_singleton, forall_eq, List.length_nil, overwriteAt_length,
           List.length_drop] at *
         omega)
  · intro he
    unfold blockReader.Read
    rw [he]
    dsimp only
    by_cases hc : 0 < r.crypted
    · simp [hc, overwriteAt]
    · have hc0 : r.crypted = 0 := by omega
      simp [hc0, overwriteAt]


theorem c7_reader_buffer_invariant_witness :
    (NewBlockReader 16).WF ∧
      ((∀ bs, 0 < bs → (NewBlockReader bs).WF) ∧
        (blockReader.Read id (NewBlockReader 16) (List.replicate 5 0)
          [([1, 2, 3], none)]).r.WF) :=
  ⟨by decide, c7_reader_buffer_invariant id (NewBlockReader 16) (List.replicate 5 0)
    [([1, 2, 3], none)] (by decide)⟩

theorem c6_reader_eof_and_truncation_witness :
    (NewBlockReader 16).WF ∧ (NewBlockReader 16).eof = false ∧
      (((NewBlockReader 16).crypted = 0 → (NewBlockReader 16).buf = [] →
        (blockReader.Read id (NewBlockReader 16) (List.replicate 8 0)
            [([], some IOErr.eof)]).upstreamReqs ≠ [] →
        (blockReader.Read id (NewBlockReader 16) (List.replicate 8 0)
            [([], some IOErr.eof)]).count = 0 ∧
        (blockReader.Read id (NewBlockReader 16) (List.replicate 8 0)
            [([], some IOErr.eof)]).err = some IOErr.eof) ∧
      ((blockReader.Read id (NewBlockReader 16) (List.replicate 8 0)
            [(List.replicate 3 5, some IOErr.eof)]).upstreamReqs ≠ [] →
        (blockReader.Read id (NewBlockReader 16) (List.replicate 8 0)
            [(List.replicate 3 5, some IOErr.eof)]).r.crypted = 0 →
        (((blockReader.Read id (NewBlockReader 16) (List.replicate 8 0)
              [(List.replicate 3 5, some IOErr.eof)]).r.buf = [] →
          (blockReader.Read id (NewBlockReader 16) (List.replicate 8 0)
              [(List.replicate 3 5, some IOErr.eof)]).err = some IOErr.eof) ∧
         ((blockReader.Read id (NewBlockReader 16) (List.replicate 8 0)
              [(List.replicate 3 5, some IOErr.eof)]).r.buf ≠ [] →
          (blockReader.Read id (NewBlockReader 16) (List.replicate 8 0)
              [(List.replicate 3 5, some IOErr.eof)]).err = some IOErr.unexpectedEOF))) ∧
      (IOErr.unexpectedEOF ≠ IOErr.eof ∧ ∀ c : Nat, IOErr.unexpectedEOF ≠ IOErr.other c)) :=
  ⟨by decide, rfl, c6_reader_eof_and_truncation id (NewBlockReader 16) (List.replicate 8 0)
    (List.replicate 3 5) (by decide) rfl⟩

theorem c10_no_zero_length_upstream_reads_witness :
    (NewBlockReader 16).WF ∧
      ((∀ q ∈ (blockReader.Read id (NewBlockReader 16) [1, 2, 3] []).upstreamReqs, 0 < q) ∧
       ((NewBlockReader 16).eof = false →
         (blockReader.Read id (NewBlockReader 16) [] []).count = 0 ∧
         (blockReader.Read id (NewBlockReader 16) [] []).err = none ∧
         (blockReader.Read id (NewBlockReader 16) [] []).upstreamReqs = [] ∧
         (blockReader.Read id (NewBlockReader 16) [] []).transformCalls = 0) ∧
       BitPadding [] = none ∧ ZeroPadding [] = some [] ∧ PKCS7Padding [] = some []) :=
  ⟨by decide, c10_no_zero_length_upstream_reads id (NewBlockReader 16) [1, 2, 3] []
    (by decide)⟩

end Cipherio
